import Mathlib

/-!
Verification of the onboarding "Follows" screen
(`app/javascript/mastodon/features/onboarding/follows.tsx`) and the hashtag
API type declaration, as a shallow embedding in Lean 4.

The component's local state and its event handlers are embedded as pure
functions from states to states paired with a list of emitted external
effects (aborts, network requests, store dispatches).  The asynchronous
search request lifecycle is modelled by a world-level step function that
tracks the set of in-flight (issued and not yet aborted / settled)
requests, identified by numeric ids standing for `AbortController`
instances.
-/

namespace Follows

/-- The two UI modes: `type Mode = 'remove' | 'add';`. -/
inductive Mode where
  | remove : Mode
  | add : Mode
deriving DecidableEq, Repr

/-- Modelled from the spec: the full `ApiAccountJSON` type is an external
collaborator not present in the sources; the spec describes the inbound data
as "a sequence of account records, each identifiable by an opaque account
identifier".  Only the `id` field is consulted by the component. -/
structure ApiAccountJSON where
  id : String
deriving DecidableEq, Repr

/-- The component's local state, as held by the React hooks:
`searchAccountIds` (`useState<string[]>([])`), `mode`
(`useState<Mode>('remove')`), `searching` (`useState(false)`), and
`searchRequestRef` (`useRef<AbortController | null>(null)`), the latter
modelled as an optional numeric request id. -/
structure CompState where
  searchAccountIds : List String
  mode : Mode
  searching : Bool
  searchRequestRef : Option Nat
deriving DecidableEq, Repr

/-- The initial hook values: empty result list, mode `remove`, not
searching, no in-flight request. -/
def initState : CompState :=
  { searchAccountIds := []
    mode := Mode.remove
    searching := false
    searchRequestRef := none }

/-- External effects emitted by the handlers: aborting a previous request's
controller, issuing a `GET v1/accounts/search` request, and the two
fire-and-forget store dispatches performed in the success continuation. -/
inductive Effect where
  | abort : Nat → Effect
  | request : Nat → String → Effect
  | dispatchImportFetchedAccounts : List ApiAccountJSON → Effect
  | dispatchFetchRelationships : List String → Effect
deriving DecidableEq, Repr

/-- The whitespace test of JavaScript string trimming, restricted to the
whitespace characters that occur in queries: space, tab, newline,
carriage return. -/
def isJsSpace (c : Char) : Bool :=
  c = ' ' || c = '\t' || c = '\n' || c = '\r'

/-- The JavaScript `value.trim()` call, embedded explicitly over the
string's character list: remove leading and trailing whitespace. -/
def jsTrim (s : List Char) : List Char :=
  ((s.dropWhile isJsSpace).reverse.dropWhile isJsSpace).reverse

/-- The synchronous body of `handleSearch` (follows.tsx lines 116-135):
first abort any controller stored in `searchRequestRef`; if the trimmed
query is empty, clear `searchAccountIds` and return; otherwise set
`searching` to true, store a fresh controller and issue the search
request.  `freshId` stands for the `new AbortController()`. -/
def handleSearch (st : CompState) (value : String) (freshId : Nat) :
    CompState × List Effect :=
  let abortEffs : List Effect :=
    match st.searchRequestRef with
    | some pend => [Effect.abort pend]
    | none => []
  if (jsTrim value.toList).length = 0 then
    ({ st with searchAccountIds := [] }, abortEffs)
  else
    ({ st with searching := true, searchRequestRef := some freshId },
      abortEffs ++ [Effect.request freshId value])

/-- The `.then` continuation of the search request (follows.tsx lines
136-142): dispatch `importFetchedAccounts(data)` and
`fetchRelationships(data.map(a => a.id))`, set `searchAccountIds` to the
returned ids in order, and set `searching` to false. -/
def handleSearchSuccess (st : CompState) (data : List ApiAccountJSON) :
    CompState × List Effect :=
  ({ st with
      searchAccountIds := data.map (fun a => a.id)
      searching := false },
    [Effect.dispatchImportFetchedAccounts data,
     Effect.dispatchFetchRelationships (data.map (fun a => a.id))])

/-- The `.catch` continuation (follows.tsx lines 143-145): the error is
swallowed and `searching` is set to false; nothing else happens. -/
def handleSearchFailure (st : CompState) : CompState × List Effect :=
  ({ st with searching := false }, [])

/-- `handleSearchClick` (follows.tsx lines 105-107): `setMode('add')`. -/
def handleSearchClick (st : CompState) : CompState :=
  { st with mode := Mode.add }

/-- `handleDismissSearchClick` (follows.tsx lines 109-111):
`setMode('remove')`. -/
def handleDismissSearchClick (st : CompState) : CompState :=
  { st with mode := Mode.remove }

/-! ## World-level request lifecycle

A `World` pairs the component state with the set of requests that have
been issued and neither aborted nor settled, plus a counter supplying
fresh controller ids. -/

/-- The component state together with the list of in-flight request ids
and a fresh-id counter. -/
structure World where
  comp : CompState
  inFlight : List Nat
  nextId : Nat
deriving DecidableEq, Repr

/-- How one emitted effect changes the in-flight set: an abort removes the
aborted id, issuing a request adds its id, dispatches change nothing. -/
def applyEffect (fl : List Nat) : Effect → List Nat
  | Effect.abort i => fl.filter (fun j => j ≠ i)
  | Effect.request i _ => fl ++ [i]
  | Effect.dispatchImportFetchedAccounts _ => fl
  | Effect.dispatchFetchRelationships _ => fl

/-- Fold `applyEffect` over an effect list. -/
def applyEffects (fl : List Nat) (effs : List Effect) : List Nat :=
  effs.foldl applyEffect fl

/-- Events driving the world: the debounced handler firing with a query,
an in-flight request resolving with data, or an in-flight request
failing (transport failure or abort reaching the promise). -/
inductive Event where
  | search : String → Event
  | resolve : Nat → List ApiAccountJSON → Event
  | reject : Nat → Event
deriving DecidableEq, Repr

/-- One world step.  A settle event (`resolve`/`reject`) for an id that is
no longer in flight is ignored: its continuation runs only for requests
whose promise is still pending. -/
def step (w : World) : Event → World
  | Event.search v =>
      let r := handleSearch w.comp v w.nextId
      { comp := r.1
        inFlight := applyEffects w.inFlight r.2
        nextId := w.nextId + 1 }
  | Event.resolve i data =>
      if i ∈ w.inFlight then
        { w with
            comp := (handleSearchSuccess w.comp data).1
            inFlight := w.inFlight.filter (fun j => j ≠ i) }
      else w
  | Event.reject i =>
      if i ∈ w.inFlight then
        { w with
            comp := (handleSearchFailure w.comp).1
            inFlight := w.inFlight.filter (fun j => j ≠ i) }
      else w

/-- The world at mount time. -/
def initWorld : World :=
  { comp := initState, inFlight := [], nextId := 0 }

/-- Run a list of events from a given world. -/
def runFrom (w : World) : List Event → World
  | [] => w
  | e :: es => runFrom (step w e) es

/-- Run a list of events from the initial world. -/
def run (es : List Event) : World :=
  runFrom initWorld es

/-- The single-slot invariant: either no request is in flight, or exactly
one is and `searchRequestRef` holds its id. -/
def Inv (w : World) : Prop :=
  w.inFlight = [] ∨
    ∃ i, w.inFlight = [i] ∧ w.comp.searchRequestRef = some i

end Follows

namespace Debounce

/-- Modelled from the spec: the `useDebouncedCallback` wrapper (from the
external `use-debounce` package, not part of the sources) with
`wait = 500` and `{ leading: true, trailing: true }`.  Per the spec it is
"a timer-based coalescer that fires immediately on the first call in a
quiet period (leading) and again after the quiet period ends if
additional calls arrived (trailing)".  The coalescer state is the active
window: its deadline and the pending trailing argument, if any. -/
abbrev Window : Type := Option (Nat × Option String)

/-- The debounce wait in time units. -/
def wait : Nat := 500

/-- Modelled from the spec: process a chronologically ordered list of
timed calls through the leading+trailing coalescer, returning the timed
invocations of the wrapped handler.  With no active window a call fires
immediately (leading) and opens a window ending `wait` later.  A call
inside the window does not fire; it becomes the trailing candidate and
resets the deadline.  When the window has expired by the time of the next
call (or at the end of input), the pending trailing candidate fires at
the deadline. -/
def debRun : Window → List (Nat × String) → List (Nat × String)
  | w, [] =>
      (match w with
        | some (dl, some p) => [(dl, p)]
        | _ => [])
  | w, (t, v) :: rest =>
      (match w with
        | none => (t, v) :: debRun (some (t + wait, none)) rest
        | some (dl, pend) =>
            if t < dl then
              debRun (some (t + wait, some v)) rest
            else
              (match pend with
                | some p => [(dl, p)]
                | none => []) ++ (t, v) :: debRun (some (t + wait, none)) rest)

/-- A chronologically increasing call sequence in which every call arrives
strictly less than `wait` after the previous one, starting after time
`prev`. -/
def ChainFrom : Nat → List (Nat × String) → Prop
  | _, [] => True
  | prev, (t, _) :: rest => prev < t ∧ t < prev + wait ∧ ChainFrom t rest

instance : ∀ (p : Nat) (l : List (Nat × String)), Decidable (ChainFrom p l)
  | _, [] => isTrue trivial
  | p, (t, _) :: rest =>
      have : Decidable (ChainFrom t rest) := instDecidableChainFrom t rest
      inferInstanceAs (Decidable (p < t ∧ t < p + wait ∧ ChainFrom t rest))

/-- The last call of a non-empty call sequence `(t, v) :: rest`. -/
def lastCall (t : Nat) (v : String) : List (Nat × String) → Nat × String
  | [] => (t, v)
  | (t2, v2) :: rest => lastCall t2 v2 rest

end Debounce

namespace HashtagApi

/-- `ApiHistoryJSON` (the unnamed type declaration file, lines 1-5): one
daily usage-history point with a day stamp and two counts, all strings. -/
structure ApiHistoryJSON where
  day : String
  accounts : String
  uses : String
deriving DecidableEq, Repr

/-- `ApiHashtagJSON` (the unnamed type declaration file, lines 7-12): a
name, a URL, the history sequence and an optional `following` flag. -/
structure ApiHashtagJSON where
  name : String
  url : String
  history : List ApiHistoryJSON
  following : Option Bool
deriving DecidableEq, Repr

/-- Flatten a history point to the bare product of its three fields. -/
def historyToProd (p : ApiHistoryJSON) : String × String × String :=
  (p.day, p.accounts, p.uses)

/-- Rebuild a history point from the bare product. -/
def prodToHistory (q : String × String × String) : ApiHistoryJSON :=
  { day := q.1, accounts := q.2.1, uses := q.2.2 }

/-- Flatten a hashtag record to the bare product of its fields. -/
def hashtagToProd (h : ApiHashtagJSON) :
    String × String × List (String × String × String) × Option Bool :=
  (h.name, h.url, h.history.map historyToProd, h.following)

/-- Rebuild a hashtag record from the bare product. -/
def prodToHashtag
    (q : String × String × List (String × String × String) × Option Bool) :
    ApiHashtagJSON :=
  { name := q.1
    url := q.2.1
    history := q.2.2.1.map prodToHistory
    following := q.2.2.2 }

end HashtagApi

/-! ## Theorems -/

open Follows Debounce HashtagApi

/-- C2: For every search request that resolves successfully with a sequence
of account records `data`, the success continuation sets the search result
identifier list to exactly the identifiers of `data`, in response order,
and sets the searching flag to false. -/
theorem C2_success_sets_ids_in_order (st : CompState)
    (data : List ApiAccountJSON) :
    (handleSearchSuccess st data).1.searchAccountIds
        = data.map (fun a => a.id)
      ∧ (handleSearchSuccess st data).1.searching = false := by
  constructor <;> rfl

/-- C3: For every query whose trimmed form is empty, `handleSearch` sets
the result identifier list to the empty list synchronously and emits no
network request effect. -/
theorem C3_empty_query_clears_without_request (st : CompState)
    (value : String) (fid : Nat) (h : (jsTrim value.toList).length = 0) :
    (handleSearch st value fid).1.searchAccountIds = []
      ∧ ∀ rid q, Effect.request rid q ∉ (handleSearch st value fid).2 := by
  unfold handleSearch
  have h' : jsTrim value.data = [] := List.length_eq_zero.mp h
  cases href : st.searchRequestRef <;> simp [String.toList, h']

/-- Witness for C3 at the whitespace-only query `"   "`. -/
theorem C3_witness :
    (handleSearch initState "   " 0).1.searchAccountIds = []
      ∧ Effect.request 7 "q" ∉ (handleSearch initState "   " 0).2 :=
  ⟨(C3_empty_query_clears_without_request initState "   " 0 (by decide)).1,
    (C3_empty_query_clears_without_request initState "   " 0
      (by decide)).2 7 "q"⟩

/-- C4: the failure/cancellation continuation sets the searching flag to
false, leaves the result identifier list (and the mode, hence the
displayed list source) unchanged, and emits no effect at all: the error
is swallowed, not surfaced. -/
theorem C4_failure_swallowed (st : CompState) :
    (handleSearchFailure st).1.searching = false
      ∧ (handleSearchFailure st).1.searchAccountIds = st.searchAccountIds
      ∧ (handleSearchFailure st).1.mode = st.mode
      ∧ (handleSearchFailure st).2 = [] := by
  refine ⟨rfl, rfl, rfl, rfl⟩

/-- C6: the mode machine starts in `remove`; the search affordance sets
`add`; the back affordance sets `remove`; no other handler changes the
mode (so these are the only mode transitions), and both transitions stay
available from every state (no terminal state). -/
theorem C6_mode_machine :
    initState.mode = Mode.remove
      ∧ (∀ st, (handleSearchClick st).mode = Mode.add)
      ∧ (∀ st, (handleDismissSearchClick st).mode = Mode.remove)
      ∧ (∀ st v fid, (handleSearch st v fid).1.mode = st.mode)
      ∧ (∀ st data, (handleSearchSuccess st data).1.mode = st.mode)
      ∧ (∀ st, (handleSearchFailure st).1.mode = st.mode) := by
  refine ⟨rfl, fun st => rfl, fun st => rfl, ?_, fun st data => rfl,
    fun st => rfl⟩
  intro st v fid
  unfold handleSearch
  cases st.searchRequestRef <;> (dsimp only; split <;> rfl)

/-- C7: the success continuation dispatches the fetched records to the
account-import action and their identifiers to the relationship-fetch
action; both appear in the emitted effect list (fire-and-forget: the
continuation completes in the same step, awaiting nothing). -/
theorem C7_success_dispatches (st : CompState) (data : List ApiAccountJSON) :
    Effect.dispatchImportFetchedAccounts data ∈ (handleSearchSuccess st data).2
      ∧ Effect.dispatchFetchRelationships (data.map (fun a => a.id))
          ∈ (handleSearchSuccess st data).2 := by
  constructor <;> simp [handleSearchSuccess]

/-- C8: the back action (`add → remove`) changes only the mode flag: the
search result identifier list, the searching flag and the stored request
slot are all left unchanged. -/
theorem C8_back_retains_results (st : CompState) :
    (handleDismissSearchClick st).mode = Mode.remove
      ∧ (handleDismissSearchClick st).searchAccountIds = st.searchAccountIds
      ∧ (handleDismissSearchClick st).searching = st.searching
      ∧ (handleDismissSearchClick st).searchRequestRef
          = st.searchRequestRef := by
  refine ⟨rfl, rfl, rfl, rfl⟩

/-- C9: the hashtag API record type consists of exactly a name string, a
URL string, a sequence of history points each holding a day string, an
accounts count string and a uses count string, and an optional boolean
following flag: flattening to the bare product of those fields and
rebuilding are mutually inverse, so no field combination outside that
product inhabits the type. -/
theorem C9_hashtag_shape :
    (∀ h : ApiHashtagJSON, prodToHashtag (hashtagToProd h) = h)
      ∧ (∀ q : String × String × List (String × String × String)
            × Option Bool, hashtagToProd (prodToHashtag q) = q) := by
  have hist : ∀ l : List ApiHistoryJSON,
      l.map (fun p => prodToHistory (historyToProd p)) = l := by
    intro l
    induction l with
    | nil => rfl
    | cons a t ih => cases a; simp [historyToProd, prodToHistory, ih]
  have hist2 : ∀ l : List (String × String × String),
      l.map (fun q => historyToProd (prodToHistory q)) = l := by
    intro l
    induction l with
    | nil => rfl
    | cons a t ih =>
        obtain ⟨x, y, z⟩ := a
        simp [historyToProd, prodToHistory, ih]
  constructor
  · intro h
    cases h with
    | mk name url history following =>
        simpa [hashtagToProd, prodToHashtag, List.map_map,
          Function.comp] using hist history
  · intro q
    obtain ⟨n, u, hs, f⟩ := q
    simpa [hashtagToProd, prodToHashtag, List.map_map,
      Function.comp] using hist2 hs

/-- C10: on every invocation of `handleSearch` with a stored in-flight
request, the abort of that request is the very first emitted effect,
before the empty-query check takes effect; in particular an
empty-trimmed query both clears the result list and cancels the pending
request while issuing no new one. -/
theorem C10_abort_first (st : CompState) (value : String) (fid : Nat)
    (pend : Nat) (h : st.searchRequestRef = some pend) :
    (handleSearch st value fid).2.head? = some (Effect.abort pend)
      ∧ ((jsTrim value.toList).length = 0 →
          (handleSearch st value fid).1.searchAccountIds = []
            ∧ ∀ rid q, Effect.request rid q ∉ (handleSearch st value fid).2)
        := by
  unfold handleSearch
  rw [h]
  by_cases hv : jsTrim value.data = [] <;> simp [String.toList, hv]

/-- Witness for C10: a state with request 0 pending, searched with an
empty query, aborts request 0 first and clears the list. -/
theorem C10_witness :
    (handleSearch { initState with searchRequestRef := some 0 } "" 1).2.head?
        = some (Effect.abort 0)
      ∧ (handleSearch { initState with searchRequestRef := some 0 }
          "" 1).1.searchAccountIds = []
      ∧ Effect.request 5 "x"
          ∉ (handleSearch { initState with searchRequestRef := some 0 }
              "" 1).2 :=
  ⟨(C10_abort_first { initState with searchRequestRef := some 0 }
      "" 1 0 rfl).1,
    ((C10_abort_first { initState with searchRequestRef := some 0 }
      "" 1 0 rfl).2 (by decide)).1,
    ((C10_abort_first { initState with searchRequestRef := some 0 }
      "" 1 0 rfl).2 (by decide)).2 5 "x"⟩

/-- The initial world satisfies the single-slot invariant. -/
theorem Follows.inv_init : Inv initWorld :=
  Or.inl rfl

/-- One world step preserves the single-slot invariant. -/
theorem Follows.inv_step (w : World) (e : Event) (h : Inv w) :
    Inv (step w e) := by
  obtain ⟨⟨ids, md, sg, ref⟩, fl, nid⟩ := w
  cases e with
  | search v =>
      cases ref with
      | none =>
          have hfl : fl = [] := by
            rcases h with h | ⟨i, _, hr⟩
            · exact h
            · exact Option.noConfusion hr
          subst hfl
          by_cases hv : jsTrim v.data = []
          · exact Or.inl
              (by simp [step, handleSearch, hv, applyEffects, applyEffect])
          · exact Or.inr ⟨nid,
              by simp [step, handleSearch, hv, applyEffects, applyEffect],
              by simp [step, handleSearch, hv]⟩
      | some pend =>
          have hfl : fl.filter (fun j => j ≠ pend) = [] := by
            rcases h with h | ⟨i, hi, hr⟩
            · have : fl = [] := h
              simp [this]
            · have hpi : pend = i := by simpa using hr
              have : fl = [i] := hi
              subst hpi
              simp [this]
          by_cases hv : jsTrim v.data = []
          · refine Or.inl ?_
            simpa [step, handleSearch, hv, applyEffects, applyEffect]
              using hfl
          · refine Or.inr ⟨nid, ?_, ?_⟩
            · have hv' : ¬(jsTrim v.toList).length = 0 := by
                simpa using hv
              simp only [step, handleSearch, applyEffects]
              rw [if_neg hv']
              show (fl.filter (fun j => j ≠ pend)) ++ [nid] = [nid]
              rw [hfl]
              rfl
            · simp [step, handleSearch, hv]
  | resolve i data =>
      rcases h with hfl | ⟨j, hfl, hr⟩
      · have : fl = [] := hfl
        subst this
        exact Or.inl (by simp [step])
      · have : fl = [j] := hfl
        subst this
        by_cases hij : i = j
        · subst hij
          exact Or.inl (by simp [step])
        · refine Or.inr ⟨j, ?_, ?_⟩
          · simp [step, hij]
          · simpa [step, hij] using hr
  | reject i =>
      rcases h with hfl | ⟨j, hfl, hr⟩
      · have : fl = [] := hfl
        subst this
        exact Or.inl (by simp [step])
      · have : fl = [j] := hfl
        subst this
        by_cases hij : i = j
        · subst hij
          exact Or.inl (by simp [step])
        · refine Or.inr ⟨j, ?_, ?_⟩
          · simp [step, hij]
          · simpa [step, hij] using hr

/-- Running any event list from an invariant world stays invariant. -/
theorem Follows.inv_runFrom (w : World) (es : List Event) (h : Inv w) :
    Inv (runFrom w es) := by
  induction es generalizing w with
  | nil => exact h
  | cons e es ih => exact ih _ (Follows.inv_step w e h)

/-- C1: along every event trace at most one search request is in flight,
and whenever `handleSearch` runs while a previous request is pending, the
abort of that request is emitted as the first effect, before any new
request is issued. -/
theorem C1_single_request_in_flight :
    (∀ es : List Event, (run es).inFlight.length ≤ 1)
      ∧ ∀ (st : CompState) (v : String) (fid pend : Nat),
          st.searchRequestRef = some pend →
            (handleSearch st v fid).2.head? = some (Effect.abort pend) := by
  constructor
  · intro es
    have h : Inv (runFrom initWorld es) :=
      Follows.inv_runFrom initWorld es Follows.inv_init
    rcases h with h | ⟨i, h, _⟩ <;> simp [run, h]
  · intro st v fid pend h
    obtain ⟨ids, md, sg, ref⟩ := st
    have h' : ref = some pend := h
    subst h'
    by_cases hv : jsTrim v.data = [] <;> simp [handleSearch, hv]

/-- Witness for C1: a trace of two overlapping searches keeps at most one
request in flight, and a search over a pending request 0 emits its abort
first. -/
theorem C1_witness :
    ((run [Event.search "a", Event.search "ab"]).inFlight.length ≤ 1)
      ∧ (handleSearch { initState with searchRequestRef := some 0 }
            "ab" 1).2.head? = some (Effect.abort 0) :=
  ⟨C1_single_request_in_flight.1 [Event.search "a", Event.search "ab"],
    C1_single_request_in_flight.2
      { initState with searchRequestRef := some 0 } "ab" 1 0 rfl⟩

/-- Every call of a chain that lands inside an active debounce window
fires nothing itself; only the trailing invocation remains, carrying the
last call's argument, `wait` units after the last call. -/
theorem Debounce.debRun_active (rest : List (Nat × String)) :
    ∀ (t : Nat) (v : String) (dl : Nat) (pend : Option String),
      t < dl → ChainFrom t rest →
      debRun (some (dl, pend)) ((t, v) :: rest)
        = [((lastCall t v rest).1 + wait, (lastCall t v rest).2)] := by
  induction rest with
  | nil =>
      intro t v dl pend ht _
      rw [debRun.eq_def]
      dsimp only
      rw [if_pos ht]
      rfl
  | cons hd rest ih =>
      obtain ⟨t2, v2⟩ := hd
      intro t v dl pend ht hc
      obtain ⟨h12, h2w, hc2⟩ := hc
      show debRun (some (dl, pend)) ((t, v) :: (t2, v2) :: rest)
        = [((lastCall t2 v2 rest).1 + wait, (lastCall t2 v2 rest).2)]
      rw [debRun.eq_def]
      dsimp only
      rw [if_pos ht]
      exact ih t2 v2 (t + wait) (some v) h2w hc2

/-- C5: for any burst of at least two calls in which each call arrives
within the 500-unit window of its predecessor, exactly two invocations of
the wrapped handler occur: the leading call, immediately, and the last
call's argument, 500 units after the last call; every intermediate call
triggers none. -/
theorem C5_debounce_leading_trailing (t0 : Nat) (v0 : String) (t1 : Nat)
    (v1 : String) (rest : List (Nat × String))
    (h : ChainFrom t0 ((t1, v1) :: rest)) :
    debRun none ((t0, v0) :: (t1, v1) :: rest)
      = [(t0, v0),
          ((lastCall t1 v1 rest).1 + wait, (lastCall t1 v1 rest).2)] := by
  obtain ⟨h01, h1w, hc⟩ := h
  rw [debRun.eq_def]
  dsimp only
  rw [Debounce.debRun_active rest t1 v1 (t0 + wait) none h1w hc]

/-- Witness for C5: the burst "a" at 0, "ab" at 100, "abc" at 200 fires
exactly the leading "a" at 0 and the trailing "abc" at 700. -/
theorem C5_witness :
    ChainFrom 0 [(100, "ab"), (200, "abc")]
      ∧ debRun none [(0, "a"), (100, "ab"), (200, "abc")]
          = [(0, "a"), (700, "abc")] :=
  ⟨by decide,
    C5_debounce_leading_trailing 0 "a" 100 "ab" [(200, "abc")] (by decide)⟩
